import Mathlib

/-!
Verification development for the PointCloudEditor repository.

The source is TypeScript running on JavaScript number semantics.  We embed
JavaScript numbers shallowly as `JSVal`: an exact rational, a signed
infinity, the not-a-number value, or a string (strings appear in decoded
delimited rows, e.g. the export header tokens).  Arithmetic operators,
`Math.min` / `Math.max` / `Math.floor` / `Math.round`, the `%` remainder,
the global `isNaN` / `isFinite`, and the string-to-number coercion
`Number(...)` are modelled on this type following the ECMAScript rules for
these shapes (rationals stand for the exact real values; binary-float
rounding is not modelled, which is irrelevant to the structural and
NaN-propagation properties proved here).
-/

inductive JSVal where
  | nan : JSVal
  | inf : Bool → JSVal
  | num : ℚ → JSVal
  | str : String → JSVal
deriving DecidableEq, Repr

/-- Whitespace characters recognised by the modelled string trimming. -/
def isWSChar (c : Char) : Bool :=
  c = ' ' || c = '\t' || c = '\n' || c = '\r'

/-- Numeric value of a list of decimal digit characters. -/
def digitsToNat (l : List Char) : ℕ :=
  l.foldl (fun a c => a * 10 + (c.toNat - 48)) 0

/-- Negation of a JavaScript number. -/
def jsNeg : JSVal → JSVal
  | .nan => .nan
  | .inf s => .inf (!s)
  | .num q => .num (-q)
  | .str s => .str s

/-- Core of the string-to-number coercion: input is trimmed and has its
sign stripped.  Recognises `Infinity` and plain decimal literals
(`12`, `12.5`, `.5`, `5.`); everything else (including exponent and hex
forms, which never occur in this repository's inputs) maps to NaN. -/
def jsNumberCore (l : List Char) : JSVal :=
  if l = "Infinity".data then .inf true
  else
    let intPart := l.takeWhile Char.isDigit
    let rest := l.dropWhile Char.isDigit
    match rest with
    | [] => if intPart.isEmpty then .nan else .num (digitsToNat intPart)
    | c :: frac =>
      if c = '.' ∧ frac.all Char.isDigit ∧ (intPart ≠ [] ∨ frac ≠ []) then
        .num ((digitsToNat intPart : ℚ) + (digitsToNat frac : ℚ) / (10 ^ frac.length))
      else .nan

/-- JavaScript `Number(string)` on a character list: trim, handle the sign
and the empty string (which coerces to `0`), then parse. -/
def jsNumberL (l : List Char) : JSVal :=
  let t := ((l.dropWhile isWSChar).reverse.dropWhile isWSChar).reverse
  match t with
  | [] => .num 0
  | '+' :: rest => if rest = [] then .nan else jsNumberCore rest
  | '-' :: rest => if rest = [] then .nan else jsNeg (jsNumberCore rest)
  | _ => jsNumberCore t

/-- JavaScript `Number(string)`. -/
def jsNumber (s : String) : JSVal := jsNumberL s.data

/-- JavaScript `ToNumber` on the values of our model: strings are coerced
through `Number(...)`, numeric values are unchanged. -/
def JSVal.toNumber : JSVal → JSVal
  | .str s => jsNumber s
  | v => v

/-- The global `isNaN` (coercing). -/
def jsIsNaN (v : JSVal) : Bool :=
  match v.toNumber with
  | .nan => true
  | _ => false

/-- The global `isFinite` (coercing). -/
def jsIsFinite (v : JSVal) : Bool :=
  match v.toNumber with
  | .num _ => true
  | _ => false

/-- Addition (numeric contexts only; the source never adds strings with
`+` in the modelled code). -/
def jsAdd (a b : JSVal) : JSVal :=
  match a.toNumber, b.toNumber with
  | .nan, _ => .nan
  | _, .nan => .nan
  | .inf s, .inf t => if s = t then .inf s else .nan
  | .inf s, .num _ => .inf s
  | .num _, .inf t => .inf t
  | .num p, .num q => .num (p + q)
  | _, _ => .nan

def jsSub (a b : JSVal) : JSVal := jsAdd a (jsNeg b.toNumber)

def jsMul (a b : JSVal) : JSVal :=
  match a.toNumber, b.toNumber with
  | .nan, _ => .nan
  | _, .nan => .nan
  | .inf s, .inf t => .inf (s = t)
  | .inf s, .num q => if q = 0 then .nan else .inf (s = decide (0 < q))
  | .num q, .inf t => if q = 0 then .nan else .inf (t = decide (0 < q))
  | .num p, .num q => .num (p * q)
  | _, _ => .nan

def jsDiv (a b : JSVal) : JSVal :=
  match a.toNumber, b.toNumber with
  | .nan, _ => .nan
  | _, .nan => .nan
  | .inf _, .inf _ => .nan
  | .inf s, .num q => .inf (s = decide (0 ≤ q))
  | .num _, .inf _ => .num 0
  | .num p, .num q =>
    if q = 0 then (if p = 0 then .nan else .inf (decide (0 < p))) else .num (p / q)
  | _, _ => .nan

instance : Add JSVal := ⟨jsAdd⟩

instance : Sub JSVal := ⟨jsSub⟩

instance : Mul JSVal := ⟨jsMul⟩

instance : Div JSVal := ⟨jsDiv⟩

instance (n : Nat) : OfNat JSVal n := ⟨.num n⟩

instance : OfScientific JSVal := ⟨fun m e b => .num (OfScientific.ofScientific m e b)⟩

/-- The `<` comparison (numeric; NaN compares false). -/
def jsLt (a b : JSVal) : Bool :=
  match a.toNumber, b.toNumber with
  | .nan, _ => false
  | _, .nan => false
  | .inf s, .inf t => !s && t
  | .inf s, .num _ => !s
  | .num _, .inf t => t
  | .num p, .num q => decide (p < q)
  | _, _ => false

/-- `Math.min` on two values. -/
def jsMin2 (a b : JSVal) : JSVal :=
  match a.toNumber, b.toNumber with
  | .nan, _ => .nan
  | _, .nan => .nan
  | .inf s, .inf t => .inf (s && t)
  | .inf s, .num q => if s then .num q else .inf false
  | .num q, .inf t => if t then .num q else .inf false
  | .num p, .num q => .num (min p q)
  | _, _ => .nan

/-- `Math.max` on two values. -/
def jsMax2 (a b : JSVal) : JSVal :=
  match a.toNumber, b.toNumber with
  | .nan, _ => .nan
  | _, .nan => .nan
  | .inf s, .inf t => .inf (s || t)
  | .inf s, .num q => if s then .inf true else .num q
  | .num q, .inf t => if t then .inf true else .num q
  | .num p, .num q => .num (max p q)
  | _, _ => .nan

/-- `Math.min(...values)` over a spread list (empty spread gives `+∞`). -/
def jsMinList (l : List JSVal) : JSVal := l.foldl jsMin2 (.inf true)

/-- `Math.max(...values)` over a spread list (empty spread gives `-∞`). -/
def jsMaxList (l : List JSVal) : JSVal := l.foldl jsMax2 (.inf false)

/-- `Math.floor`. -/
def jsFloor (v : JSVal) : JSVal :=
  match v.toNumber with
  | .num q => .num ((⌊q⌋ : ℤ) : ℚ)
  | .nan => .nan
  | .inf s => .inf s
  | _ => .nan

/-- Truncation toward zero on rationals. -/
def ratTrunc (q : ℚ) : ℤ := if 0 ≤ q then ⌊q⌋ else ⌈q⌉

/-- The `%` remainder operator (sign follows the dividend). -/
def jsRem (a b : JSVal) : JSVal :=
  match a.toNumber, b.toNumber with
  | .nan, _ => .nan
  | _, .nan => .nan
  | .inf _, _ => .nan
  | .num p, .inf _ => .num p
  | .num p, .num q =>
    if q = 0 then .nan else .num (p - q * (ratTrunc (p / q) : ℚ))
  | _, _ => .nan

/-- `Math.round` (on our rational model: floor of the value plus one half). -/
def jsRound (v : JSVal) : JSVal :=
  match v.toNumber with
  | .num q => .num ((⌊q + 1/2⌋ : ℤ) : ℚ)
  | .nan => .nan
  | .inf s => .inf s
  | _ => .nan

/-- `Math.round(q)` on an exact rational, as an integer. -/
def ratRound (q : ℚ) : ℤ := ⌊q + 1/2⌋

/-!
Colormap engine — `createColorMapForCSV` and `HSVtoRGB` from
`src/lib/utils/point-cloud-utils.ts`.  The three palette branches of the
source's `switch (mapType)` are transcribed as one named function each;
`createColorMapForCSV` dispatches among them exactly as the switch does
(unknown palette names fall to the default branch).
-/

/-- `HSVtoRGB` from the source: six-sector conversion; the `switch (i % 6)`
statement leaves the initial `r = g = b = 0` untouched when `i % 6`
matches no case (e.g. when it is NaN). -/
def HSVtoRGB (h s v : JSVal) : JSVal × JSVal × JSVal :=
  let i := jsFloor (h * 6)
  let f := h * 6 - i
  let p := v * (1 - s)
  let q := v * (1 - f * s)
  let t := v * (1 - (1 - f) * s)
  let m := jsRem i 6
  if m = (0 : JSVal) then (v, t, p)
  else if m = (1 : JSVal) then (q, v, p)
  else if m = (2 : JSVal) then (p, v, t)
  else if m = (3 : JSVal) then (p, q, v)
  else if m = (4 : JSVal) then (t, p, v)
  else if m = (5 : JSVal) then (v, p, q)
  else ((0 : JSVal), (0 : JSVal), (0 : JSVal))

/-- The `case 'rainbow'` branch of `createColorMapForCSV`. -/
def rainbowColor (normalized : JSVal) : JSVal × JSVal × JSVal :=
  let hue := (1 - normalized) * 270
  HSVtoRGB (hue / 360) 1 1

/-- The `case 'elevation'` branch of `createColorMapForCSV`. -/
def elevationColor (n : JSVal) : JSVal × JSVal × JSVal :=
  if jsLt n 0.2 then (0, n * 5, 1)
  else if jsLt n 0.4 then (0, 1, 1 - (n - 0.2) * 5)
  else if jsLt n 0.6 then ((n - 0.4) * 5, 1, 0)
  else if jsLt n 0.8 then (1, 1 - (n - 0.6) * 5, 0)
  else (1, (n - 0.8) * 5, (n - 0.8) * 5)

/-- The `default` branch of `createColorMapForCSV`. -/
def defaultColor (n : JSVal) : JSVal × JSVal × JSVal :=
  if jsLt n 0.5 then (0, n * 2, 1 - n * 2)
  else ((n - 0.5) * 2, 1 - (n - 0.5) * 2, 0)

/-- `createColorMapForCSV` from the source: normalizes each z value by the
list's own extrema (`(z - min) / (max - min)`, with no guard for
`max = min`) and writes one RGB triple per input value. -/
def createColorMapForCSV (zValues : List JSVal) (mapType : String) : List JSVal :=
  let minV := jsMinList zValues
  let maxV := jsMaxList zValues
  let range := maxV - minV
  zValues.flatMap (fun z =>
    let normalized := (z - minV) / range
    let c :=
      if mapType = "rainbow" then rainbowColor normalized
      else if mapType = "elevation" then elevationColor normalized
      else defaultColor normalized
    [c.1, c.2.1, c.2.2])

/-!
Delimited-text parser — `loadCSV` from `src/lib/utils/point-cloud-utils.ts`.

The decoding collaborator (PapaParse with `dynamicTyping` and
`skipEmptyLines`) is external to the repository; per spec section 4.1 it
turns the raw file into rows of number-or-text cells, so `loadCSV` here
takes the decoded rows (`results.data`) directly as `List (List JSVal)`.
The `Float32Array` constructions of the source coerce every element
through `ToNumber`, hence the `.map JSVal.toNumber` at the end; the
`updateHeightBounds` side channel is modelled separately by
`updateHeightBounds` below, as in the orchestrating caller.
-/

instance {ε α : Type} [DecidableEq ε] [DecidableEq α] : DecidableEq (Except ε α) := fun a b =>
  match a, b with
  | .ok x, .ok y =>
    if h : x = y then .isTrue (by rw [h]) else .isFalse (by simp [h])
  | .error e, .error f =>
    if h : e = f then .isTrue (by rw [h]) else .isFalse (by simp [h])
  | .ok _, .error _ => .isFalse (by simp)
  | .error _, .ok _ => .isFalse (by simp)

structure CSVResult where
  positions : List JSVal
  colors : List JSVal
  originalData : List (List JSVal)
  zValues : List JSVal
  hasRGB : Bool
deriving DecidableEq, Repr

/-- Accumulator for the row loop of `loadCSV` (the four local arrays
`positions`, `colors`, `zValues`, `validPointCount`). -/
structure CSVAcc where
  positions : List JSVal
  colors : List JSVal
  zValues : List JSVal
  validPointCount : ℕ
deriving DecidableEq, Repr

/-- The channel validation of `loadCSV`:
`isNaN(r) ? 128 : Math.max(0, Math.min(255, r))`, then `/ 255`. -/
def validChan (v : JSVal) : JSVal :=
  (if jsIsNaN v then (128 : JSVal) else jsMax2 0 (jsMin2 255 v)) / 255

/-- One iteration of the `results.data.forEach` loop of `loadCSV`. -/
def processRow (hasRGB : Bool) (acc : CSVAcc) (row : List JSVal) : CSVAcc :=
  match row with
  | x :: y :: z :: rest =>
    if jsIsNaN x || jsIsNaN y || jsIsNaN z
        || !jsIsFinite x || !jsIsFinite y || !jsIsFinite z then
      acc
    else
      let acc1 : CSVAcc :=
        { acc with positions := acc.positions ++ [x, y, z],
                   zValues := acc.zValues ++ [z],
                   validPointCount := acc.validPointCount + 1 }
      if hasRGB then
        match rest with
        | r :: g :: b :: _ =>
          { acc1 with colors := acc1.colors ++ [validChan r, validChan g, validChan b] }
        | _ => acc1
      else acc1
  | _ => acc

/-- The `hasRGB` decision of `loadCSV`:
`results.data[0] && results.data[0].length >= 6` (an absent first row is
falsy, hence `false`). -/
def firstRowHasRGB (rows : List (List JSVal)) : Bool :=
  match rows with
  | [] => false
  | r0 :: _ => decide (6 ≤ r0.length)

/-- `loadCSV`: scan all rows, then fail when no row was accepted, else
build the record (explicit colors when `hasRGB`, otherwise colors from the
colormap engine over the collected z values). -/
def loadCSV (rows : List (List JSVal)) (colorMapType : String) :
    Except String CSVResult :=
  let hasRGB := firstRowHasRGB rows
  let acc := rows.foldl (processRow hasRGB) ⟨[], [], [], 0⟩
  if acc.validPointCount = 0 then
    .error "no valid point cloud data found"
  else
    .ok { positions := acc.positions.map JSVal.toNumber,
          colors :=
            if hasRGB then acc.colors.map JSVal.toNumber
            else createColorMapForCSV acc.zValues colorMapType,
          originalData := rows,
          zValues := acc.zValues,
          hasRGB := hasRGB }

/-- A row the `forEach` body accepts: at least three fields with finite
numeric x, y, z (the exact negation of the skip condition). -/
def rowAccepted (row : List JSVal) : Bool :=
  match row with
  | x :: y :: z :: _ =>
    !(jsIsNaN x || jsIsNaN y || jsIsNaN z
        || !jsIsFinite x || !jsIsFinite y || !jsIsFinite z)
  | _ => false

/-!
Export encoder — `exportToCSV` from
`src/components/pointcloud/PointCloudApp.tsx`.

The source emits the text `"X,Y,Z,R,G,B\n"` followed by one line
`x,y,z,round(r*255),round(g*255),round(b*255)` per point (looping `i` up
to `positions.length / 3` over a record's equal-length position and color
buffers).  JavaScript number-to-string-to-number round-trips are exact, so
the re-decoded rows are modelled directly: the header decodes to six
non-numeric text cells, each data line to its six numeric cells.
-/

def exportHeaderRow : List JSVal :=
  [.str "X", .str "Y", .str "Z", .str "R", .str "G", .str "B"]

/-- The data rows of the export loop, consuming the flat position and
color buffers three entries at a time. -/
def exportDataRows : List ℚ → List ℚ → List (List JSVal)
  | x :: y :: z :: ps, r :: g :: b :: cs =>
    [JSVal.num x, .num y, .num z,
     .num (ratRound (r * 255) : ℤ), .num (ratRound (g * 255) : ℤ),
     .num (ratRound (b * 255) : ℤ)] :: exportDataRows ps cs
  | _, _ => []

/-- `exportToCSV` at the level of decoded rows: header row then data rows. -/
def exportToCSVRows (positions colors : List ℚ) : List (List JSVal) :=
  exportHeaderRow :: exportDataRows positions colors

/-!
Bounds tracker — `updateHeightBounds` from
`src/components/pointcloud/PointCloudApp.tsx` and its initial state
`useState<[number, number]>([-10, 10])`.
-/

/-- `updateHeightBounds`: widen the previous bounds with the new cloud's
extrema via `Math.min` / `Math.max`. -/
def updateHeightBounds (prevBounds : JSVal × JSVal) (minZ maxZ : JSVal) :
    JSVal × JSVal :=
  (jsMin2 prevBounds.1 minZ, jsMax2 prevBounds.2 maxZ)

/-- The initial `heightBounds` state of the application. -/
def heightBoundsInit : JSVal × JSVal := (.num (-10), .num 10)

/-- The bounds published after a session of per-cloud updates, each update
carrying a cloud's finite z extrema. -/
def runBoundsUpdates (updates : List (ℚ × ℚ)) : JSVal × JSVal :=
  updates.foldl (fun b u => updateHeightBounds b (.num u.1) (.num u.2)) heightBoundsInit

/-!
Scientific-format parser — `loadPCD` from
`src/lib/utils/point-cloud-utils.ts`, Tier 1 (the direct ASCII parse).

The function decodes the file bytes to text, checks the header signature
(`text.startsWith('# .PCD') || text.includes('VERSION')` — it throws only
when both fail), scans header lines for `POINTS` / `FIELDS` / `DATA`, and
when the data section is ASCII with a positive declared point count it
tokenizes each data line by whitespace and converts tokens with `Number`.
When Tier 1 yields no points the source falls through to the external
`PCDLoader` (Tier 2), a collaborator outside this repository; that exit is
modelled as the distinct outcome `tier2`.  String helpers (`trim`, split,
`includes`, `parseInt`) are modelled after their ECMAScript semantics.
-/

/-- JavaScript `String.prototype.trim` on a character list. -/
def trimChars (l : List Char) : List Char :=
  ((l.dropWhile isWSChar).reverse.dropWhile isWSChar).reverse

/-- `split(c)` on a character list (keeps empty segments, as JavaScript
`String.prototype.split` with a single-character separator does). -/
def splitOnChar (c : Char) : List Char → List (List Char)
  | [] => [[]]
  | a :: t =>
    let r := splitOnChar c t
    if a = c then [] :: r else (a :: r.headD []) :: r.tail

/-- Substring test (`String.prototype.includes`). -/
def listContainsSub (needle : List Char) : List Char → Bool
  | [] => needle.isEmpty
  | a :: t => needle.isPrefixOf (a :: t) || listContainsSub needle t

def strStartsWith (s p : String) : Bool := p.data.isPrefixOf s.data

def strContains (s p : String) : Bool := listContainsSub p.data s.data

/-- Split on runs of whitespace (`split(/\s+/)` applied, as in the source,
to already-trimmed lines). -/
def splitWSAux : List Char → List Char → List (List Char)
  | [], cur => if cur.isEmpty then [] else [cur.reverse]
  | c :: t, cur =>
    if isWSChar c then
      if cur.isEmpty then splitWSAux t [] else cur.reverse :: splitWSAux t []
    else splitWSAux t (c :: cur)

def splitWS (l : List Char) : List (List Char) := splitWSAux l []

/-- Leading decimal digits of a character list, or `none` when there are
no digits (`parseInt` returning NaN). -/
def parseIntDigits (l : List Char) : Option ℤ :=
  let ds := l.takeWhile Char.isDigit
  if ds.isEmpty then none else some (digitsToNat ds)

/-- JavaScript `parseInt` restricted to the decimal shapes that occur in
PCD headers. -/
def jsParseInt (l : List Char) : Option ℤ :=
  match l.dropWhile isWSChar with
  | '-' :: rest => (parseIntDigits rest).map (fun n => -n)
  | '+' :: rest => parseIntDigits rest
  | t => parseIntDigits t

structure PCDResult where
  positions : List JSVal
  colors : List JSVal
  originalData : List (List JSVal)
  hasColor : Bool
  zValues : List JSVal
deriving DecidableEq, Repr

/-- Outcome of `loadPCD`: a thrown error, a Tier-1 record, or the fall
through to the external Tier-2 loader. -/
inductive PCDOutcome where
  | err : String → PCDOutcome
  | ok : PCDResult → PCDOutcome
  | tier2 : PCDOutcome
deriving DecidableEq, Repr

/-- Header fields collected by the header loop of `loadPCD`
(`pointCount = none` models a NaN `parseInt` result). -/
structure PCDHeader where
  pointCount : Option ℤ
  hasColor : Bool
  isASCII : Bool
  dataStart : ℕ
deriving DecidableEq, Repr

/-- The header loop: walk the lines, record `POINTS` / `FIELDS`
declarations, and stop at the `DATA` line. -/
def scanPCDHeader : List (List Char) → ℕ → PCDHeader → PCDHeader
  | [], _, h => h
  | rawLine :: rest, i, h =>
    let line := trimChars rawLine
    if "POINTS".data.isPrefixOf line then
      scanPCDHeader rest (i + 1)
        { h with pointCount := jsParseInt ((splitOnChar ' ' line).getD 1 []) }
    else if "FIELDS".data.isPrefixOf line then
      scanPCDHeader rest (i + 1)
        { h with hasColor := listContainsSub "rgb".data line
                   || listContainsSub "r".data line
                   || listContainsSub "rgba".data line }
    else if "DATA".data.isPrefixOf line then
      { h with isASCII := listContainsSub "ascii".data line, dataStart := i + 1 }
    else scanPCDHeader rest (i + 1) h

/-- The ASCII data loop of `loadPCD`: tokenize each non-empty line, accept
lines with at least three fields (no finiteness check), read color
channels when declared and present. -/
def parsePCDData (lines : List (List Char)) (hasColor : Bool) :
    List JSVal × List JSVal :=
  lines.foldl (fun acc rawLine =>
    let line := trimChars rawLine
    if line.isEmpty then acc
    else
      match (splitWS line).map jsNumberL with
      | x :: y :: z :: rest =>
        if hasColor then
          match rest with
          | r :: g :: b :: _ =>
            (acc.1 ++ [x, y, z], acc.2 ++ [r / 255, g / 255, b / 255])
          | _ => (acc.1 ++ [x, y, z], acc.2)
        else (acc.1 ++ [x, y, z], acc.2)
      | _ => acc) ([], [])

/-- `createSingleColorForPCD`: the constant gray fallback color. -/
def createSingleColorForPCD (pointCount : ℕ) : List JSVal :=
  (List.range pointCount).flatMap (fun _ => [(0.7 : JSVal), 0.7, 0.7])

/-- The z-extraction loop of `loadPCD` (every third entry). -/
def extractZValues (positions : List JSVal) : List JSVal :=
  (List.range (positions.length / 3)).map (fun i => positions.getD (i * 3 + 2) (.num 0))

/-- The `originalData` reconstruction loop of `loadPCD`. -/
def buildOriginalData (positions colors : List JSVal) : List (List JSVal) :=
  (List.range (positions.length / 3)).map (fun i =>
    [positions.getD (i * 3) (.num 0), positions.getD (i * 3 + 1) (.num 0),
     positions.getD (i * 3 + 2) (.num 0),
     jsRound (colors.getD (i * 3) (.num 0) * 255),
     jsRound (colors.getD (i * 3 + 1) (.num 0) * 255),
     jsRound (colors.getD (i * 3 + 2) (.num 0) * 255)])

/-- `loadPCD` on the decoded file text: signature check, header scan,
Tier-1 ASCII parse, and the Tier-2 fall-through. -/
def loadPCD (text : String) : PCDOutcome :=
  if !strStartsWith text "# .PCD" && !strContains text "VERSION" then
    .err "not a valid PCD format"
  else
    let lines := splitOnChar '\n' text.data
    let h := scanPCDHeader lines 0 ⟨some 0, false, false, 0⟩
    let positiveCount : Bool :=
      match h.pointCount with
      | some n => decide (0 < n)
      | none => false
    if h.isASCII && positiveCount then
      let parsed := parsePCDData (lines.drop h.dataStart) h.hasColor
      if 0 < parsed.1.length then
        let colorArray :=
          if 0 < parsed.2.length then parsed.2
          else createSingleColorForPCD (parsed.1.length / 3)
        .ok { positions := parsed.1,
              colors := colorArray,
              originalData := buildOriginalData parsed.1 colorArray,
              hasColor := decide (0 < parsed.2.length),
              zValues := extractZValues parsed.1 }
      else .tier2
    else .tier2

/-- Projection used to state facts about a Tier-1 success. -/
def PCDOutcome.positionsOr : PCDOutcome → Option (List JSVal)
  | .ok r => some r.positions
  | _ => none

/-- The bounds side channel of `loadPCD`: on a Tier-1 success with
non-empty z values the source calls
`updateHeightBounds(Math.min(...zValues), Math.max(...zValues))`. -/
def PCDOutcome.reportedBoundsOr : PCDOutcome → Option (JSVal × JSVal)
  | .ok r =>
    if 0 < r.zValues.length then some (jsMinList r.zValues, jsMaxList r.zValues)
    else none
  | _ => none

/-- Position cells a row contributes to the `positions` array. -/
def rowPosContrib (row : List JSVal) : List JSVal :=
  match row with
  | x :: y :: z :: _ => if rowAccepted row then [x, y, z] else []
  | _ => []

/-- Z cells a row contributes to the `zValues` array. -/
def rowZContrib (row : List JSVal) : List JSVal :=
  match row with
  | _ :: _ :: z :: _ => if rowAccepted row then [z] else []
  | _ => []

/-- Color cells a row contributes to the `colors` array (only accepted
rows with at least six fields contribute, and only when `hasRGB`). -/
def rowColorContrib (hasRGB : Bool) (row : List JSVal) : List JSVal :=
  match row with
  | _ :: _ :: _ :: r :: g :: b :: _ =>
    if rowAccepted row && hasRGB then [validChan r, validChan g, validChan b] else []
  | _ => []

/-- Predicate for rows that contribute explicit colors. -/
def rowHasColorFields (row : List JSVal) : Bool :=
  rowAccepted row && decide (6 ≤ row.length)

/-- Check that a published bounds pair still contains `[-10, 10]`. -/
def boundsContainInit (b : JSVal × JSVal) : Bool :=
  match b with
  | (.num a, .num c) => decide (a ≤ -10) && decide (10 ≤ c)
  | _ => false

/-- Linear interpolation of two RGB triples. -/
def lerp3 (c d : ℚ × ℚ × ℚ) (s : ℚ) : ℚ × ℚ × ℚ :=
  (c.1 + (d.1 - c.1) * s, c.2.1 + (d.2.1 - c.2.1) * s, c.2.2 + (d.2.2 - c.2.2) * s)

/-- Spec-side elevation palette, following the words of spec section 4.4:
five bands blue→cyan, cyan→green, green→yellow, yellow→red, red→white of
width `0.2`, each linearly interpolating its two endpoint colors by the
band-local fraction times 5. -/
def elevationSpecColor (t : ℚ) : ℚ × ℚ × ℚ :=
  if t < 1/5 then lerp3 (0, 0, 1) (0, 1, 1) (t * 5)
  else if t < 2/5 then lerp3 (0, 1, 1) (0, 1, 0) ((t - 1/5) * 5)
  else if t < 3/5 then lerp3 (0, 1, 0) (1, 1, 0) ((t - 2/5) * 5)
  else if t < 4/5 then lerp3 (1, 1, 0) (1, 0, 0) ((t - 3/5) * 5)
  else lerp3 (1, 0, 0) (1, 1, 1) ((t - 4/5) * 5)

def csvIsOk (e : Except String CSVResult) : Bool :=
  match e with
  | .ok _ => true
  | _ => false

def csvErrMsg (e : Except String CSVResult) : Option String :=
  match e with
  | .error m => some m
  | _ => none

def c1Rows : List (List JSVal) :=
  [[JSVal.num 1, .num 2, .num 3, .num 7, .num 8, .num 9]]

def c1Rec : CSVResult :=
  { positions := [.num 1, .num 2, .num 3],
    colors := [.num (7/255), .num (8/255), .num (9/255)],
    originalData := c1Rows,
    zValues := [.num 3],
    hasRGB := true }

/-- A value that is a finite number outright. -/
def isFiniteNumVal (v : JSVal) : Bool :=
  match v with
  | .num _ => true
  | _ => false

/-- The decoded text of a PCD file with a valid ASCII header whose first
data row carries a non-numeric z token. -/
def pcdNaNText : String :=
  "# .PCD v0.7\nVERSION 0.7\nFIELDS x y z\nPOINTS 2\nDATA ascii\n1 2 nan\n3 4 5\n"

def c3Rows : List (List JSVal) :=
  [[.num 1, .num 2, JSVal.nan], [.num 3, .num 4, .num 5]]

def c3Rec : CSVResult :=
  { positions := [.num 3, .num 4, .num 5],
    colors := [JSVal.nan, JSVal.nan, .num 0],
    originalData := c3Rows,
    zValues := [.num 5],
    hasRGB := false }

def c6Rows : List (List JSVal) :=
  [[.num 0, .num 0, .num 0, .num 255, .num 0, .num 0],
   [.num 1, .num 1, .num 1, .num 0, .num 255, .num 0]]

def c6Rec : CSVResult :=
  { positions := [.num 0, .num 0, .num 0, .num 1, .num 1, .num 1],
    colors := [.num 1, .num 0, .num 0, .num 0, .num 1, .num 0],
    originalData := c6Rows,
    zValues := [.num 0, .num 1],
    hasRGB := true }

/-!
Basic evaluation lemmas for the JavaScript-number model on finite
rationals, and a characterization of the `loadCSV` row loop as a
per-row contribution (`flatMap`) that the claim proofs build on.
-/

@[simp] lemma toNumber_num (q : ℚ) : (JSVal.num q).toNumber = .num q := rfl

@[simp] lemma jsIsNaN_num (q : ℚ) : jsIsNaN (.num q) = false := rfl

@[simp] lemma jsIsFinite_num (q : ℚ) : jsIsFinite (.num q) = true := rfl

@[simp] lemma num_add_num (a b : ℚ) : JSVal.num a + JSVal.num b = .num (a + b) := rfl

@[simp] lemma num_sub_num (a b : ℚ) : JSVal.num a - JSVal.num b = .num (a - b) := by
  show jsSub _ _ = _
  simp [jsSub, jsNeg, jsAdd, JSVal.toNumber, sub_eq_add_neg]

@[simp] lemma num_mul_num (a b : ℚ) : JSVal.num a * JSVal.num b = .num (a * b) := rfl

lemma num_div_num (a b : ℚ) (h : b ≠ 0) : JSVal.num a / JSVal.num b = .num (a / b) := by
  show jsDiv _ _ = _
  simp [jsDiv, JSVal.toNumber, h]

@[simp] lemma jsLt_num_num (a b : ℚ) : jsLt (.num a) (.num b) = decide (a < b) := rfl

@[simp] lemma jsMin2_num_num (a b : ℚ) : jsMin2 (.num a) (.num b) = .num (min a b) := rfl

@[simp] lemma jsMax2_num_num (a b : ℚ) : jsMax2 (.num a) (.num b) = .num (max a b) := rfl

@[simp] lemma jsval_ofNat (n : ℕ) [n.AtLeastTwo] :
    (OfNat.ofNat n : JSVal) = .num (OfNat.ofNat n) := rfl

@[simp] lemma jsval_zero : (0 : JSVal) = .num 0 := rfl

@[simp] lemma jsval_one : (1 : JSVal) = .num 1 := rfl

lemma processRow_eq (hasRGB : Bool) (acc : CSVAcc) (row : List JSVal) :
    processRow hasRGB acc row =
      { positions := acc.positions ++ rowPosContrib row,
        colors := acc.colors ++ rowColorContrib hasRGB row,
        zValues := acc.zValues ++ rowZContrib row,
        validPointCount := acc.validPointCount + (if rowAccepted row then 1 else 0) } := by
  rcases row with _ | ⟨x, _ | ⟨y, _ | ⟨z, rest⟩⟩⟩
  · simp [processRow, rowPosContrib, rowColorContrib, rowZContrib, rowAccepted]
  · simp [processRow, rowPosContrib, rowColorContrib, rowZContrib, rowAccepted]
  · simp [processRow, rowPosContrib, rowColorContrib, rowZContrib, rowAccepted]
  · rcases rest with _ | ⟨r, _ | ⟨g, _ | ⟨b, rest2⟩⟩⟩ <;>
      cases hc : (jsIsNaN x || jsIsNaN y || jsIsNaN z
        || !jsIsFinite x || !jsIsFinite y || !jsIsFinite z) <;>
      cases hasRGB <;>
      simp [processRow, rowPosContrib, rowColorContrib, rowZContrib, rowAccepted, hc]

lemma foldl_processRow (hasRGB : Bool) (rows : List (List JSVal)) (acc : CSVAcc) :
    rows.foldl (processRow hasRGB) acc =
      { positions := acc.positions ++ rows.flatMap rowPosContrib,
        colors := acc.colors ++ rows.flatMap (rowColorContrib hasRGB),
        zValues := acc.zValues ++ rows.flatMap rowZContrib,
        validPointCount := acc.validPointCount + rows.countP rowAccepted } := by
  induction rows generalizing acc with
  | nil => simp
  | cons row rest ih =>
    rw [List.foldl_cons, ih, processRow_eq]
    cases h : rowAccepted row <;>
      (simp [List.countP_cons, h, List.append_assoc]; try omega)

lemma loadCSV_spec (rows : List (List JSVal)) (mt : String) :
    loadCSV rows mt =
      if rows.countP rowAccepted = 0 then
        .error "no valid point cloud data found"
      else
        .ok { positions := (rows.flatMap rowPosContrib).map JSVal.toNumber,
              colors :=
                if firstRowHasRGB rows then
                  (rows.flatMap (rowColorContrib (firstRowHasRGB rows))).map JSVal.toNumber
                else createColorMapForCSV (rows.flatMap rowZContrib) mt,
              originalData := rows,
              zValues := rows.flatMap rowZContrib,
              hasRGB := firstRowHasRGB rows } := by
  unfold loadCSV
  simp [foldl_processRow]

lemma rowPosContrib_length (row : List JSVal) :
    (rowPosContrib row).length = if rowAccepted row then 3 else 0 := by
  rcases row with _ | ⟨x, _ | ⟨y, _ | ⟨z, rest⟩⟩⟩ <;>
    (simp [rowPosContrib, rowAccepted]; try (split <;> simp))

lemma rowZContrib_length (row : List JSVal) :
    (rowZContrib row).length = if rowAccepted row then 1 else 0 := by
  rcases row with _ | ⟨x, _ | ⟨y, _ | ⟨z, rest⟩⟩⟩ <;>
    (simp [rowZContrib, rowAccepted]; try (split <;> simp))

/-- A row contributes colors exactly when it is accepted, `hasRGB` holds,
and it carries at least six fields. -/
lemma rowColorContrib_length (hasRGB : Bool) (row : List JSVal) :
    (rowColorContrib hasRGB row).length =
      if rowAccepted row && hasRGB && decide (6 ≤ row.length) then 3 else 0 := by
  rcases row with _ | ⟨x, _ | ⟨y, _ | ⟨z, _ | ⟨r, _ | ⟨g, _ | ⟨b, rest⟩⟩⟩⟩⟩⟩ <;>
    (simp [rowColorContrib, rowAccepted]; try (split <;> simp_all))

lemma flatMap_rowPosContrib_length (rows : List (List JSVal)) :
    (rows.flatMap rowPosContrib).length = 3 * rows.countP rowAccepted := by
  induction rows with
  | nil => simp
  | cons row rest ih =>
    cases h : rowAccepted row <;>
      (simp [List.countP_cons, h, rowPosContrib_length, ih]; try omega)

lemma flatMap_rowZContrib_length (rows : List (List JSVal)) :
    (rows.flatMap rowZContrib).length = rows.countP rowAccepted := by
  induction rows with
  | nil => simp
  | cons row rest ih =>
    cases h : rowAccepted row <;>
      (simp [List.countP_cons, h, rowZContrib_length, ih]; try omega)

lemma flatMap_rowColorContrib_length (hasRGB : Bool) (rows : List (List JSVal)) :
    (rows.flatMap (rowColorContrib hasRGB)).length =
      if hasRGB then 3 * rows.countP rowHasColorFields else 0 := by
  induction rows with
  | nil => simp
  | cons row rest ih =>
    cases hasRGB <;>
      cases h : rowHasColorFields row <;>
      simp only [rowHasColorFields, Bool.and_eq_true, decide_eq_true_eq] at h <;>
      (simp [List.countP_cons, rowColorContrib_length, ih, rowHasColorFields, h]; try omega)

lemma length_flatMap_triple {α β : Type} (g : α → List β) (h3 : ∀ a, (g a).length = 3)
    (l : List α) : (l.flatMap g).length = 3 * l.length := by
  induction l with
  | nil => simp
  | cons a t ih => simp [h3, ih]; ring

lemma createColorMapForCSV_length (zs : List JSVal) (mt : String) :
    (createColorMapForCSV zs mt).length = 3 * zs.length := by
  unfold createColorMapForCSV
  apply length_flatMap_triple
  intro a
  simp

/-!
Claim theorems.
-/

/-- C4: the bounds merge returns exactly the componentwise `min`/`max` of
the current bounds and the new extrema, so the result interval always
contains the current interval, and the two concrete merges of the spec
evaluate as stated (including the non-widening one). -/
theorem C4_bounds_merge (a b c d : ℚ) :
    updateHeightBounds (.num a, .num b) (.num c) (.num d)
        = (.num (min a c), .num (max b d))
      ∧ min a c ≤ a ∧ b ≤ max b d
      ∧ updateHeightBounds (.num (-5), .num 5) (.num (-10)) (.num 3)
          = (.num (-10), .num 5)
      ∧ updateHeightBounds (.num (-10), .num 5) (.num 0) (.num 0)
          = (.num (-10), .num 5) :=
  ⟨rfl, min_le_left a c, le_max_left b d,
   by with_unfolding_all decide, by with_unfolding_all decide⟩

lemma boundsFold_widens (us : List (ℚ × ℚ)) : ∀ a b : ℚ,
    ∃ a' b' : ℚ,
      us.foldl (fun bnd u => updateHeightBounds bnd (.num u.1) (.num u.2)) (.num a, .num b)
          = (.num a', .num b')
        ∧ a' ≤ a ∧ b ≤ b' := by
  induction us with
  | nil => exact fun a b => ⟨a, b, rfl, le_refl a, le_refl b⟩
  | cons u t ih =>
    intro a b
    obtain ⟨a', b', heq, ha, hb⟩ := ih (min a u.1) (max b u.2)
    refine ⟨a', b', ?_, le_trans ha (min_le_left _ _), le_trans (le_max_left _ _) hb⟩
    simpa [updateHeightBounds] using heq

lemma boundsFold_fixed (us : List (ℚ × ℚ)) : ∀ a b : ℚ,
    (∀ u ∈ us, a ≤ u.1 ∧ u.2 ≤ b) →
      us.foldl (fun bnd u => updateHeightBounds bnd (.num u.1) (.num u.2)) (.num a, .num b)
        = (.num a, .num b) := by
  induction us with
  | nil => intro a b _; rfl
  | cons u t ih =>
    intro a b h
    have h1 := h u (List.mem_cons_self u t)
    have hstep : updateHeightBounds ((JSVal.num a, JSVal.num b)) (.num u.1) (.num u.2)
        = (.num a, .num b) := by
      simp [updateHeightBounds, min_eq_left h1.1, max_eq_left h1.2]
    simp only [List.foldl_cons, hstep]
    exact ih a b (fun v hv => h v (List.mem_cons_of_mem _ hv))

/-- C10 counterexample: not every reachable sequence of bounds updates
keeps `[-10, 10]` inside the published interval.  Loading the
`pcdNaNText` cloud through the scientific-format parser reports extrema
`Math.min` / `Math.max` over its z values `[NaN, 5]`, i.e. `(NaN, NaN)`;
merging that update into the initial bounds makes `heightBounds`
`[NaN, NaN]`, which does not contain `[-10, 10]`. -/
theorem C10_counterexample :
    (loadPCD pcdNaNText).reportedBoundsOr = some (JSVal.nan, JSVal.nan)
    ∧ updateHeightBounds heightBoundsInit JSVal.nan JSVal.nan = (JSVal.nan, JSVal.nan)
    ∧ boundsContainInit (JSVal.nan, JSVal.nan) = false :=
  ⟨by with_unfolding_all decide, by with_unfolding_all decide,
   by with_unfolding_all decide⟩

/-- C10 amended: the session bounds start at `[-10, 10]` and each merge
with finite extrema only widens, so after any sequence of per-cloud
updates carrying finite z extrema the published interval still contains
`[-10, 10]`; when every loaded cloud's finite extrema lie strictly inside
`(-10, 10)`, the published bounds stay exactly `[-10, 10]` rather than
the clouds' actual extrema.  (An update with NaN extrema — reachable from
the scientific parser's unchecked z values, see the counterexample —
instead collapses the bounds to `[NaN, NaN]`.) -/
theorem C10_bounds_contain_default (updates : List (ℚ × ℚ)) :
    boundsContainInit (runBoundsUpdates updates) = true
    ∧ ((∀ u ∈ updates, -10 < u.1 ∧ u.2 < 10) →
        runBoundsUpdates updates = heightBoundsInit) := by
  constructor
  · obtain ⟨a', b', heq, ha, hb⟩ := boundsFold_widens updates (-10) 10
    unfold runBoundsUpdates heightBoundsInit
    rw [heq]
    simp [boundsContainInit, ha, hb]
  · intro h
    unfold runBoundsUpdates heightBoundsInit
    exact boundsFold_fixed updates (-10) 10
      (fun u hu => ⟨le_of_lt (h u hu).1, le_of_lt (h u hu).2⟩)

/-- C10 witness: a session loading one cloud with extrema `(0, 0)` keeps
bounds `[-10, 10]`. -/
theorem C10_bounds_contain_default_witness :
    boundsContainInit (runBoundsUpdates [(0, 0)]) = true
    ∧ runBoundsUpdates [(0, 0)] = heightBoundsInit :=
  ⟨(C10_bounds_contain_default [(0, 0)]).1,
   (C10_bounds_contain_default [(0, 0)]).2 (by with_unfolding_all decide)⟩

/-- C2: on a flat input (every value equal, here `[1]`), the colormap
divides by `max - min = 0`, producing NaN `t`; the default palette then
yields components `(NaN, NaN, 0)` and the elevation palette
`(1, NaN, NaN)` — NaN components, contradicting the claim — while the
rainbow palette happens to return `(0, 0, 0)` because the NaN sector index
matches no `switch` case. -/
theorem C2_flat_input_nan :
    createColorMapForCSV [JSVal.num 1] "default" = [JSVal.nan, JSVal.nan, JSVal.num 0]
    ∧ createColorMapForCSV [JSVal.num 1] "elevation" = [JSVal.num 1, JSVal.nan, JSVal.nan]
    ∧ createColorMapForCSV [JSVal.num 1] "rainbow" = [JSVal.num 0, JSVal.num 0, JSVal.num 0] :=
  ⟨by with_unfolding_all decide, by with_unfolding_all decide,
   by with_unfolding_all decide⟩

/-- C9: when the decoded text neither starts with the `# .PCD` marker nor
contains the `VERSION` keyword, `loadPCD` throws the invalid-format error
immediately: no record and no Tier-2 attempt. -/
theorem C9_invalid_header (text : String)
    (h1 : strStartsWith text "# .PCD" = false)
    (h2 : strContains text "VERSION" = false) :
    loadPCD text = .err "not a valid PCD format" := by
  unfold loadPCD
  simp [h1, h2]

/-- C9 witness: the text `hello` has no PCD signature and is rejected. -/
theorem C9_invalid_header_witness :
    strStartsWith "hello" "# .PCD" = false
    ∧ strContains "hello" "VERSION" = false
    ∧ loadPCD "hello" = .err "not a valid PCD format" :=
  ⟨by with_unfolding_all decide, by with_unfolding_all decide,
   C9_invalid_header "hello" (by with_unfolding_all decide)
     (by with_unfolding_all decide)⟩

/-- C7: the source's elevation branch agrees with the spec's five-band
piecewise-linear ramp at every rational normalized value, and the exact
band boundaries map to pure cyan at `t = 0.2` and pure red at `t = 0.8`. -/
theorem C7_elevation_palette :
    (∀ t : ℚ, elevationColor (.num t)
        = (.num (elevationSpecColor t).1, .num (elevationSpecColor t).2.1,
           .num (elevationSpecColor t).2.2))
    ∧ elevationColor (.num (1/5)) = (.num 0, .num 1, .num 1)
    ∧ elevationColor (.num (4/5)) = (.num 1, .num 0, .num 0) := by
  refine ⟨?_, by with_unfolding_all decide, by with_unfolding_all decide⟩
  intro t
  have e2 : (0.2 : JSVal) = .num (1/5) := by
    show JSVal.num (0.2 : ℚ) = .num (1/5)
    norm_num
  have e4 : (0.4 : JSVal) = .num (2/5) := by
    show JSVal.num (0.4 : ℚ) = .num (2/5)
    norm_num
  have e6 : (0.6 : JSVal) = .num (3/5) := by
    show JSVal.num (0.6 : ℚ) = .num (3/5)
    norm_num
  have e8 : (0.8 : JSVal) = .num (4/5) := by
    show JSVal.num (0.8 : ℚ) = .num (4/5)
    norm_num
  unfold elevationColor elevationSpecColor lerp3
  rw [e2, e4, e6, e8]
  simp only [jsval_ofNat, jsval_one, jsval_zero, jsLt_num_num, num_sub_num,
    num_mul_num, decide_eq_true_eq]
  split_ifs <;> simp only [Prod.mk.injEq, JSVal.num.injEq] <;>
    exact ⟨by ring, by ring, by ring⟩

/-- C8: the delimited parser resolves with a record exactly when some row
was accepted, and otherwise fails with the single no-valid-points error
after the whole scan. -/
theorem C8_error_iff_no_valid_rows (rows : List (List JSVal)) (mt : String) :
    csvIsOk (loadCSV rows mt) = rows.any rowAccepted
    ∧ csvErrMsg (loadCSV rows mt) =
        (if rows.any rowAccepted then none
         else some "no valid point cloud data found") := by
  rw [loadCSV_spec]
  by_cases h : rows.countP rowAccepted = 0
  · have hany : rows.any rowAccepted = false := by
      rw [List.any_eq_false]
      intro x hx
      have := List.countP_eq_zero.mp h x hx
      simpa using this
    simp [h, hany, csvIsOk, csvErrMsg]
  · have hany : rows.any rowAccepted = true := by
      rw [List.any_eq_true]
      obtain ⟨a, ha, hpa⟩ := List.countP_pos_iff.mp (Nat.pos_of_ne_zero h)
      exact ⟨a, ha, hpa⟩
    simp [h, hany, csvIsOk, csvErrMsg]

/-- C1 counterexample: a file whose first row has six fields but whose
second accepted row has only three produces a record with two points
(`positions.length = 6`, `zValues.length = 2`) but only one color triple
(`colors.length = 3 ≠ 3 × 2`), so the colors buffer is not index-aligned
with positions. -/
theorem C1_counterexample :
    (loadCSV [[JSVal.num 1, JSVal.num 2, JSVal.num 3, JSVal.num 10, JSVal.num 20, JSVal.num 30],
              [JSVal.num 4, JSVal.num 5, JSVal.num 6]] "default").map
        (fun r => (r.positions.length, r.zValues.length, r.colors.length))
      = .ok (6, 2, 3)
    ∧ (3 : ℕ) ≠ 3 * 2 :=
  ⟨by with_unfolding_all decide, by decide⟩

/-- C1 amended: for every record, `positions.length = 3 × zValues.length`
and `zValues.length` equals the number of accepted rows; the colors buffer
has length `3 × N` when colors come from the colormap engine
(`hasRGB = false`), but when `hasRGB = true` its length is three times the
number of accepted rows that themselves carry at least six fields, which
is smaller than `3 × N` whenever an accepted row lacks the color fields. -/
theorem C1_buffer_lengths (rows : List (List JSVal)) (mt : String) (r : CSVResult)
    (h : loadCSV rows mt = .ok r) :
    r.positions.length = 3 * r.zValues.length
    ∧ r.zValues.length = rows.countP rowAccepted
    ∧ r.colors.length =
        (if r.hasRGB then 3 * rows.countP rowHasColorFields
         else 3 * r.zValues.length) := by
  rw [loadCSV_spec] at h
  by_cases h0 : rows.countP rowAccepted = 0
  · simp [h0] at h
  · simp only [h0, if_false, Except.ok.injEq] at h
    cases h
    cases hrgb : firstRowHasRGB rows <;>
      simp [hrgb, flatMap_rowPosContrib_length, flatMap_rowZContrib_length,
        flatMap_rowColorContrib_length, createColorMapForCSV_length,
        -List.length_flatMap]

/-- C1 witness: the amended statement evaluated on a one-row six-field
file. -/
theorem C1_buffer_lengths_witness :
    c1Rec.positions.length = 3 * c1Rec.zValues.length
    ∧ c1Rec.zValues.length = c1Rows.countP rowAccepted
    ∧ c1Rec.colors.length =
        (if c1Rec.hasRGB then 3 * c1Rows.countP rowHasColorFields
         else 3 * c1Rec.zValues.length) :=
  C1_buffer_lengths c1Rows "default" c1Rec (by with_unfolding_all decide)

lemma mem_rowPosContrib_finite (row : List JSVal) (x : JSVal)
    (hx : x ∈ rowPosContrib row) : jsIsFinite x = true := by
  rcases row with _ | ⟨a, _ | ⟨b, _ | ⟨c, rest⟩⟩⟩ <;>
    simp only [rowPosContrib] at hx
  · simp at hx
  · simp at hx
  · simp at hx
  · cases hacc : rowAccepted (a :: b :: c :: rest) with
    | false => simp [hacc] at hx
    | true =>
      rw [if_pos hacc] at hx
      simp only [rowAccepted, Bool.not_eq_true', Bool.or_eq_false_iff,
        Bool.not_eq_false'] at hacc
      obtain ⟨⟨⟨⟨⟨-, -⟩, -⟩, hfa⟩, hfb⟩, hfc⟩ := hacc
      simp only [List.mem_cons, List.not_mem_nil, or_false] at hx
      rcases hx with rfl | rfl | rfl
      exacts [hfa, hfb, hfc]

lemma toNumber_of_finite (x : JSVal) (h : jsIsFinite x = true) :
    isFiniteNumVal x.toNumber = true := by
  unfold jsIsFinite at h
  cases hx : x.toNumber <;> simp_all [isFiniteNumVal]

/-- C3 counterexample: the scientific-format parser accepts the row
`1 2 nan` unchanged — its positions buffer retains a NaN coordinate, so
non-finite rows are not dropped by that parser. -/
theorem C3_counterexample :
    (loadPCD pcdNaNText).positionsOr
        = some [JSVal.num 1, JSVal.num 2, JSVal.nan, JSVal.num 3, JSVal.num 4, JSVal.num 5]
    ∧ (loadPCD pcdNaNText).positionsOr.map (fun l => l.all isFiniteNumVal) = some false :=
  ⟨by with_unfolding_all decide, by with_unfolding_all decide⟩

/-- C3 amended: the delimited-text parser does drop non-finite rows —
every coordinate retained in one of its records is a finite number, and
the input `[[1,2,NaN],[3,4,5]]` yields exactly the one point `(3,4,5)` —
but the scientific-format parser performs no finiteness check (see the
counterexample). -/
theorem C3_csv_positions_finite (rows : List (List JSVal)) (mt : String)
    (r : CSVResult) (h : loadCSV rows mt = .ok r) :
    r.positions.all isFiniteNumVal = true
    ∧ (loadCSV [[JSVal.num 1, JSVal.num 2, JSVal.nan],
                [JSVal.num 3, JSVal.num 4, JSVal.num 5]] "default").map
          (fun rec => rec.positions)
        = .ok [JSVal.num 3, JSVal.num 4, JSVal.num 5] := by
  refine ⟨?_, by with_unfolding_all decide⟩
  rw [loadCSV_spec] at h
  by_cases h0 : rows.countP rowAccepted = 0
  · simp [h0] at h
  · simp only [h0, if_false, Except.ok.injEq] at h
    cases h
    rw [List.all_eq_true]
    intro v hv
    rw [List.mem_map] at hv
    obtain ⟨x, hx, rfl⟩ := hv
    rw [List.mem_flatMap] at hx
    obtain ⟨row, _, hxr⟩ := hx
    exact toNumber_of_finite x (mem_rowPosContrib_finite row x hxr)

/-- C3 witness: the amended statement evaluated on the spec's
`[[1,2,NaN],[3,4,5]]` input. -/
theorem C3_csv_positions_finite_witness :
    c3Rec.positions.all isFiniteNumVal = true
    ∧ (loadCSV [[JSVal.num 1, JSVal.num 2, JSVal.nan],
                [JSVal.num 3, JSVal.num 4, JSVal.num 5]] "default").map
          (fun rec => rec.positions)
        = .ok [JSVal.num 3, JSVal.num 4, JSVal.num 5] :=
  C3_csv_positions_finite c3Rows "default" c3Rec (by with_unfolding_all decide)

/-- C6: `hasExplicitColor` is decided once from the first row's field
count (at least six) and every record reports exactly that decision; when
it holds, the colors array is the concatenation of the per-row
contributions of `validChan` (NaN→128, clamp to [0,255], divide by 255)
applied uniformly to every accepted row with at least six fields; and the
spec's two-row scenario evaluates to `hasExplicitColor = true`,
`positions = [0,0,0,1,1,1]` and `colors = [1,0,0,0,1,0]`. -/
theorem C6_first_row_decides (rows : List (List JSVal)) (mt : String)
    (r : CSVResult) (h : loadCSV rows mt = .ok r) :
    r.hasRGB = firstRowHasRGB rows
    ∧ r.colors =
        (if firstRowHasRGB rows then
          (rows.flatMap (rowColorContrib (firstRowHasRGB rows))).map JSVal.toNumber
        else createColorMapForCSV r.zValues mt)
    ∧ (loadCSV c6Rows "default").map
          (fun rec => (rec.hasRGB, rec.positions, rec.colors))
        = .ok (true,
               [JSVal.num 0, JSVal.num 0, JSVal.num 0, JSVal.num 1, JSVal.num 1, JSVal.num 1],
               [JSVal.num 1, JSVal.num 0, JSVal.num 0, JSVal.num 0, JSVal.num 1, JSVal.num 0]) := by
  refine ⟨?_, ?_, by with_unfolding_all decide⟩ <;>
    (rw [loadCSV_spec] at h
     by_cases h0 : rows.countP rowAccepted = 0
     · simp [h0] at h
     · simp only [h0, if_false, Except.ok.injEq] at h
       cases h
       cases hrgb : firstRowHasRGB rows <;> simp [hrgb])

/-- C6 witness: the statement evaluated on the spec's two-row scenario. -/
theorem C6_first_row_decides_witness :
    c6Rec.hasRGB = firstRowHasRGB c6Rows
    ∧ c6Rec.colors =
        (if firstRowHasRGB c6Rows then
          (c6Rows.flatMap (rowColorContrib (firstRowHasRGB c6Rows))).map JSVal.toNumber
        else createColorMapForCSV c6Rec.zValues "default")
    ∧ (loadCSV c6Rows "default").map
          (fun rec => (rec.hasRGB, rec.positions, rec.colors))
        = .ok (true,
               [JSVal.num 0, JSVal.num 0, JSVal.num 0, JSVal.num 1, JSVal.num 1, JSVal.num 1],
               [JSVal.num 1, JSVal.num 0, JSVal.num 0, JSVal.num 0, JSVal.num 1, JSVal.num 0]) :=
  C6_first_row_decides c6Rows "default" c6Rec (by with_unfolding_all decide)

lemma ratRound_bounds (c : ℚ) (h0 : 0 ≤ c) (h1 : c ≤ 1) :
    (0 : ℚ) ≤ (ratRound (c * 255) : ℤ) ∧ ((ratRound (c * 255) : ℤ) : ℚ) ≤ 255 := by
  unfold ratRound
  constructor
  · have : (0 : ℤ) ≤ ⌊c * 255 + 1/2⌋ := by
      rw [Int.le_floor]
      push_cast
      linarith
    exact_mod_cast this
  · have : ⌊c * 255 + 1/2⌋ < (256 : ℤ) := by
      rw [Int.floor_lt]
      push_cast
      linarith
    have h : ⌊c * 255 + 1/2⌋ ≤ (255 : ℤ) := by omega
    exact_mod_cast h

lemma ratRound_err (c : ℚ) (_h0 : 0 ≤ c) (_h1 : c ≤ 1) :
    |((ratRound (c * 255) : ℤ) : ℚ) / 255 - c| ≤ 1 / 255 := by
  unfold ratRound
  have hle := Int.floor_le (c * 255 + 1/2)
  have hlt := Int.lt_floor_add_one (c * 255 + 1/2)
  rw [abs_le]
  constructor <;> [linarith [hlt]; linarith [hle]]

lemma validChan_num (k : ℚ) (h0 : 0 ≤ k) (h255 : k ≤ 255) :
    validChan (.num k) = .num (k / 255) := by
  unfold validChan
  rw [show (255 : JSVal) = .num 255 from rfl, show (0 : JSVal) = .num 0 from rfl]
  simp [min_eq_right h255, max_eq_right h0,
    num_div_num _ _ (by norm_num : (255 : ℚ) ≠ 0)]

lemma exportDataRows_spec : ∀ (n : ℕ) (ps cs : List ℚ),
    ps.length = 3 * n → cs.length = 3 * n → (∀ c ∈ cs, 0 ≤ c ∧ c ≤ 1) →
    (exportDataRows ps cs).flatMap rowPosContrib = ps.map JSVal.num
    ∧ (exportDataRows ps cs).flatMap (rowColorContrib true)
        = cs.map (fun c => JSVal.num (((ratRound (c * 255) : ℤ) : ℚ) / 255))
    ∧ (exportDataRows ps cs).countP rowAccepted = n := by
  intro n
  induction n with
  | zero =>
    intro ps cs hp hc _
    have hps : ps = [] := List.length_eq_zero.mp (by simpa using hp)
    have hcs : cs = [] := List.length_eq_zero.mp (by simpa using hc)
    subst hps
    subst hcs
    simp [exportDataRows]
  | succ m ih =>
    intro ps cs hp hc hb
    obtain ⟨x, y, z, t, rfl⟩ : ∃ x y z t, ps = x :: y :: z :: t := by
      rcases ps with _ | ⟨x, _ | ⟨y, _ | ⟨z, t⟩⟩⟩ <;> simp at hp <;> try omega
      exact ⟨x, y, z, t, rfl⟩
    obtain ⟨r, g, b, u, rfl⟩ : ∃ r g b u, cs = r :: g :: b :: u := by
      rcases cs with _ | ⟨r, _ | ⟨g, _ | ⟨b, u⟩⟩⟩ <;> simp at hc <;> try omega
      exact ⟨r, g, b, u, rfl⟩
    have ht : t.length = 3 * m := by simp at hp; omega
    have hu : u.length = 3 * m := by simp at hc; omega
    have hbu : ∀ c ∈ u, 0 ≤ c ∧ c ≤ 1 :=
      fun c hcm => hb c (by simp [hcm])
    obtain ⟨ihp, ihc, ihn⟩ := ih t u ht hu hbu
    have hbr := hb r (by simp)
    have hbg := hb g (by simp)
    have hbb := hb b (by simp)
    have hrowacc : rowAccepted
        [JSVal.num x, .num y, .num z, .num (ratRound (r * 255) : ℤ),
         .num (ratRound (g * 255) : ℤ), .num (ratRound (b * 255) : ℤ)] = true := by
      simp [rowAccepted]
    refine ⟨?_, ?_, ?_⟩
    · simp only [exportDataRows, List.flatMap_cons, ihp, List.map_cons]
      rw [rowPosContrib, if_pos hrowacc]
      simp
    · simp only [exportDataRows, List.flatMap_cons, ihc, List.map_cons]
      rw [rowColorContrib]
      rw [if_pos (by simp [hrowacc])]
      rw [validChan_num _ (ratRound_bounds r hbr.1 hbr.2).1 (ratRound_bounds r hbr.1 hbr.2).2,
          validChan_num _ (ratRound_bounds g hbg.1 hbg.2).1 (ratRound_bounds g hbg.1 hbg.2).2,
          validChan_num _ (ratRound_bounds b hbb.1 hbb.2).1 (ratRound_bounds b hbb.1 hbb.2).2]
      simp
    · simp only [exportDataRows, List.countP_cons, hrowacc, ihn]
      simp

/-- C5: exporting a record with explicit RGB (position buffer of length
`3n`, color buffer of length `3n` with components in `[0,1]`) and
re-parsing the exported text as delimited input yields exactly the
original positions (exact in the rational model, hence within float32
precision) and colors `round(c*255)/255`, each within `1/255` of the
original component. -/
theorem C5_roundtrip (ps cs : List ℚ) (n : ℕ)
    (hp : ps.length = 3 * n) (hc : cs.length = 3 * n) (hn : 0 < n)
    (hb : ∀ c ∈ cs, 0 ≤ c ∧ c ≤ 1) :
    (loadCSV (exportToCSVRows ps cs) "default").map
        (fun r => (r.positions, r.hasRGB, r.colors))
      = .ok (ps.map JSVal.num, true,
             cs.map (fun c => JSVal.num (((ratRound (c * 255) : ℤ) : ℚ) / 255)))
    ∧ cs.all
        (fun c => decide (|(((ratRound (c * 255) : ℤ) : ℚ)) / 255 - c| ≤ 1 / 255))
      = true := by
  constructor
  · rw [loadCSV_spec]
    obtain ⟨hpos, hcol, hcount⟩ := exportDataRows_spec n ps cs hp hc hb
    have hhdr : rowAccepted exportHeaderRow = false := by with_unfolding_all decide
    have hhdrPos : rowPosContrib exportHeaderRow = [] := by with_unfolding_all decide
    have hhdrCol : rowColorContrib true exportHeaderRow = [] := by
      with_unfolding_all decide
    have hfr : firstRowHasRGB (exportToCSVRows ps cs) = true := by
      simp [exportToCSVRows, firstRowHasRGB, exportHeaderRow]
    have hcnt : (exportToCSVRows ps cs).countP rowAccepted = n := by
      simp [exportToCSVRows, List.countP_cons, hhdr, hcount]
    rw [if_neg (by rw [hcnt]; omega)]
    simp only [Except.map, Except.ok.injEq, Prod.mk.injEq, hfr, if_true]
    refine ⟨?_, trivial, ?_⟩
    · simp only [exportToCSVRows, List.flatMap_cons, hhdrPos, List.nil_append,
        hpos, List.map_map]
      simp [Function.comp, JSVal.toNumber]
    · simp only [exportToCSVRows, List.flatMap_cons, hhdrCol, List.nil_append,
        hcol, List.map_map]
      simp [Function.comp, JSVal.toNumber]
  · rw [List.all_eq_true]
    intro c hcm
    rw [decide_eq_true_eq]
    exact ratRound_err c (hb c hcm).1 (hb c hcm).2

/-- C5 witness: the round trip evaluated on one point `(1,2,3)` with color
`(1, 0, 1/2)`. -/
theorem C5_roundtrip_witness :
    (loadCSV (exportToCSVRows [1, 2, 3] [1, 0, 1/2]) "default").map
        (fun r => (r.positions, r.hasRGB, r.colors))
      = .ok (([1, 2, 3] : List ℚ).map JSVal.num, true,
             ([1, 0, 1/2] : List ℚ).map
               (fun c => JSVal.num (((ratRound (c * 255) : ℤ) : ℚ) / 255)))
    ∧ ([1, 0, 1/2] : List ℚ).all
        (fun c => decide (|(((ratRound (c * 255) : ℤ) : ℚ)) / 255 - c| ≤ 1 / 255))
      = true :=
  C5_roundtrip [1, 2, 3] [1, 0, 1/2] 1 (by with_unfolding_all decide)
    (by with_unfolding_all decide) (by decide)
    (by
      intro c hc
      simp only [List.mem_cons, List.not_mem_nil, or_false] at hc
      rcases hc with rfl | rfl | rfl <;> constructor <;> norm_num)

/-- C4 witness: the merge evaluated at bounds `[1, 2]` and extrema
`(3, 4)`. -/
theorem C4_bounds_merge_witness :
    updateHeightBounds (.num 1, .num 2) (.num 3) (.num 4)
        = (.num (min 1 3), .num (max 2 4))
      ∧ min (1 : ℚ) 3 ≤ 1 ∧ (2 : ℚ) ≤ max 2 4
      ∧ updateHeightBounds (.num (-5), .num 5) (.num (-10)) (.num 3)
          = (.num (-10), .num 5)
      ∧ updateHeightBounds (.num (-10), .num 5) (.num 0) (.num 0)
          = (.num (-10), .num 5) :=
  C4_bounds_merge 1 2 3 4

/-- C7 witness: the palette agreement instantiated at `t = 1/2`
(mid-ramp green). -/
theorem C7_elevation_palette_witness :
    elevationColor (.num (1/2))
      = (.num (elevationSpecColor (1/2)).1, .num (elevationSpecColor (1/2)).2.1,
         .num (elevationSpecColor (1/2)).2.2) :=
  C7_elevation_palette.1 (1/2)

/-- C8 witness: the resolve-or-reject equivalence evaluated on a one-row
file. -/
theorem C8_error_iff_no_valid_rows_witness :
    csvIsOk (loadCSV [[JSVal.num 1, .num 2, .num 3]] "default")
        = [[JSVal.num 1, .num 2, .num 3]].any rowAccepted
    ∧ csvErrMsg (loadCSV [[JSVal.num 1, .num 2, .num 3]] "default")
        = (if [[JSVal.num 1, .num 2, .num 3]].any rowAccepted then none
           else some "no valid point cloud data found") :=
  C8_error_iff_no_valid_rows [[JSVal.num 1, .num 2, .num 3]] "default"
